import Mathlib

/-!
Shallow embedding of server.js, a wedding RSVP backend: one SQLite table
rsvps, an insert route, and read-only list, export and admin routes.

Conventions of the embedding:
- a JS string value coming from the request body or from a nullable column is
  an Option String, where none stands for JS null or undefined (stored as SQL
  NULL and read back as null);
- the timestamps the storage engine assigns via DEFAULT CURRENT_TIMESTAMP are
  the strings the engine produces, supplied to the insert operation as an
  explicit clock argument;
- whether a given SQLite statement succeeds is an explicit boolean oracle
  argument of the handler, since the handler itself only branches on the err
  value of the callback.
-/

/-- The double quote character. -/
def dquote : Char := Char.ofNat 34

/-- The single quote character. -/
def squote : Char := Char.ofNat 39

/-- The carriage return character. -/
def cr : Char := Char.ofNat 13

/-- One row of the rsvps table (server.js lines 26-36): id assigned by integer
primary key AUTOINCREMENT, five caller-supplied nullable text columns, and
created_at defaulted to CURRENT_TIMESTAMP at insert time. -/
structure Row where
  id : Nat
  code : Option String
  name : Option String
  attending : Option String
  dietary : Option String
  message : Option String
  created_at : Option String
deriving DecidableEq

/-- The five fields destructured from the POST /rsvp request body
(server.js line 45); any of them may be null or absent. -/
structure Payload where
  code : Option String
  name : Option String
  attending : Option String
  dietary : Option String
  message : Option String
deriving DecidableEq

/-- The state of the rsvps table: stored rows in insertion order, plus the
AUTOINCREMENT counter (the next id to hand out; SQLite AUTOINCREMENT never
reuses an id, even across the full history). -/
structure Store where
  rows : List Row
  nextId : Nat
deriving DecidableEq

/-- A freshly created rsvps table: no rows, AUTOINCREMENT starting at 1. -/
def emptyStore : Store := { rows := [], nextId := 1 }

/-- JS coercion String(v ?? ""): null and undefined become the empty string,
a string stays itself. Used by escapeHtml (line 94) and escapeCsv (line 208). -/
def jsString (v : Option String) : String := v.getD ""

/-- JS replaceAll with a single-character pattern: every occurrence of the
character c is replaced by the string r. -/
def substChar (c : Char) (r : List Char) : List Char → List Char
  | [] => []
  | x :: t => (if x = c then r else [x]) ++ substChar c r t

/-- escapeHtml from the admin route (server.js lines 93-99), on the character
list: ampersand, less than, greater than, double quote and single quote
replaced, in exactly that order, by their HTML entities. -/
def escapeHtmlL (s : List Char) : List Char :=
  substChar squote "&#039;".data
    (substChar dquote "&quot;".data
      (substChar (Char.ofNat 62) "&gt;".data
        (substChar (Char.ofNat 60) "&lt;".data
          (substChar (Char.ofNat 38) "&amp;".data s))))

/-- escapeHtml from the admin route (server.js lines 93-99): String(s ?? "")
with the five special characters replaced by their HTML entities. -/
def escapeHtml (v : Option String) : String :=
  String.mk (escapeHtmlL (jsString v).data)

/-- The test of the regex matching a double quote, a comma or a line feed
(server.js line 210). -/
def csvNeedsQuoting (s : String) : Bool :=
  s.data.any fun c => c == dquote || c == ',' || c == '\n'

/-- escapeCsv from the export route (server.js lines 207-212), on the already
stringified value: wrapped in double quotes with embedded double quotes
doubled exactly when the string contains a double quote, a comma or a line
feed; returned unchanged otherwise. -/
def escapeCsvStr (s : String) : String :=
  if csvNeedsQuoting s then
    String.mk (dquote :: (substChar dquote [dquote, dquote] s.data ++ [dquote]))
  else s

/-- escapeCsv applied to a nullable text value: String(value ?? "") then the
quoting rule. -/
def escapeCsv (v : Option String) : String := escapeCsvStr (jsString v)

/-- CSV line for one row (server.js lines 217-225): id, created_at, code,
name, attending, dietary, message, each through escapeCsv, joined with
commas; the numeric id is stringified by String(value ?? ""). -/
def renderCsvRow (r : Row) : String :=
  String.intercalate ","
    [escapeCsvStr (toString r.id), escapeCsv r.created_at, escapeCsv r.code,
     escapeCsv r.name, escapeCsv r.attending, escapeCsv r.dietary,
     escapeCsv r.message]

/-- CSV header row (server.js line 214). -/
def csvHeader : String := "id,created_at,code,name,attending,dietary,message"

/-- SQLite comparison of two nullable text values, as a boolean: NULL sorts
before any text, and text compares bytewise, modelled as lexicographic order
on the character lists. -/
def createdLeB (a b : Option String) : Bool :=
  match a, b with
  | none, _ => true
  | some _, none => false
  | some x, some y => decide (x.data ≤ y.data)

/-- Strict version of the nullable text comparison: a is strictly earlier
than b. -/
def createdLt (a b : Option String) : Prop :=
  createdLeB a b = true ∧ createdLeB b a = false

instance (a b : Option String) : Decidable (createdLt a b) :=
  inferInstanceAs (Decidable (_ ∧ _))

/-- The order in which ORDER BY created_at DESC emits two rows: a comes no
later than b when the created_at of b is less than or equal to that of a
(NULL timestamps last). -/
def rowDesc (a b : Row) : Prop := createdLeB b.created_at a.created_at = true

instance : DecidableRel rowDesc := fun a b =>
  instDecidableEqBool (createdLeB b.created_at a.created_at) true

/-- SELECT id, code, name, attending, dietary, message, created_at FROM rsvps
ORDER BY created_at DESC (server.js lines 67-70): every row, most recent
created_at first. -/
def listAll (st : Store) : List Row := st.rows.insertionSort rowDesc

/-- INSERT INTO rsvps (code, name, attending, dietary, message)
VALUES (?, ?, ?, ?, ?) (server.js lines 47-50): the engine assigns id from the
AUTOINCREMENT counter and created_at from CURRENT_TIMESTAMP (the clock value
now); the second component is this.lastID, the assigned id. -/
def insertRow (st : Store) (p : Payload) (now : String) : Store × Nat :=
  let r : Row :=
    { id := st.nextId, code := p.code, name := p.name, attending := p.attending,
      dietary := p.dietary, message := p.message, created_at := some now }
  ({ rows := st.rows ++ [r], nextId := st.nextId + 1 }, st.nextId)

/-- Body of a POST /rsvp response (server.js lines 52-60): success true with
the new id, or the generic database error object. -/
inductive PostBody where
  | success (id : Nat)
  | dbError (msg : String)
deriving DecidableEq

/-- An HTTP response of POST /rsvp: status code and JSON body. -/
structure PostResponse where
  status : Nat
  body : PostBody
deriving DecidableEq

/-- The POST /rsvp handler (server.js lines 44-63), as a function of the
current store, the request payload, the engine clock, and whether the INSERT
succeeds: on success the store gains the row and the response is 200 with
success true and this.lastID; on failure the store is unchanged and the
response is status 500 with the constant body, the underlying err object
being only logged server side. -/
def postRsvp (st : Store) (p : Payload) (now : String) (dbOk : Bool) :
    Store × PostResponse :=
  if dbOk then
    ((insertRow st p now).1,
     { status := 200, body := .success (insertRow st p now).2 })
  else
    (st, { status := 500, body := .dbError "Database error" })

/-- One table row of the admin page (server.js lines 103-112): the template
literal with each field passed through escapeHtml. -/
def renderAdminRow (r : Row) : String :=
  "\n        <tr>\n          <td>" ++ escapeHtml r.created_at ++
  "</td>\n          <td>" ++ escapeHtml r.code ++
  "</td>\n          <td>" ++ escapeHtml r.name ++
  "</td>\n          <td>" ++ escapeHtml r.attending ++
  "</td>\n          <td>" ++ escapeHtml r.dietary ++
  "</td>\n          <td>" ++ escapeHtml r.message ++
  "</td>\n        </tr>\n      "

/-- The tbody content of the admin page (server.js lines 101-114 and 161):
the rendered rows joined with the empty string; when that joined string is
empty (JS falsy), the placeholder row instead. -/
def adminTbody (rows : List Row) : String :=
  if String.join (rows.map renderAdminRow) = "" then
    "<tr><td colspan=\"6\" class=\"small\">No RSVPs yet.</td></tr>"
  else String.join (rows.map renderAdminRow)

/-- GET /rsvps (server.js lines 66-79): the JSON body is the full row list in
ORDER BY created_at DESC order. -/
def rsvpsBody (st : Store) : List Row := listAll st

/-- GET /admin (server.js lines 82-173): one rendered table row per stored
record, in the same ORDER BY created_at DESC order as GET /rsvps. -/
def adminRows (st : Store) : List String := (listAll st).map renderAdminRow

/-- GET /export.csv body (server.js lines 214-231): the header line then one
CSV line per row, joined with line feeds. -/
def exportCsvBody (st : Store) : String :=
  String.intercalate "\n" (csvHeader :: (listAll st).map renderCsvRow)

/-- One inbound HTTP request together with the environment the handler sees:
for POST /rsvp, the engine clock value and whether the INSERT succeeds; every
other route only reads the store. -/
inductive Event where
  | post (p : Payload) (now : String) (dbOk : Bool)
  | getRoot
  | getRsvps
  | getAdmin
  | exportJson
  | exportCsv
deriving DecidableEq

/-- State transition of the store for one request: only a successful
POST /rsvp changes it; no route of server.js runs an UPDATE or a DELETE. -/
def stepStore (st : Store) : Event → Store
  | .post p now dbOk => if dbOk then (insertRow st p now).1 else st
  | .getRoot => st
  | .getRsvps => st
  | .getAdmin => st
  | .exportJson => st
  | .exportCsv => st

/-- Runs a sequence of requests against a store. -/
def runEvents (st : Store) : List Event → Store
  | [] => st
  | e :: es => runEvents (stepStore st e) es

/-- CREATE TABLE IF NOT EXISTS rsvps (server.js lines 26-36), on the storage
location: none models a location where the rsvps table does not exist yet, in
which case the empty table is created; when the table already exists the
statement is a no-op by the IF NOT EXISTS clause and raises no error. -/
def runCreateTable (d : Option Store) : Except String (Option Store) :=
  match d with
  | none => .ok (some emptyStore)
  | some st => .ok (some st)

/-- Reads the content of an RFC4180 quoted field after its opening quote: a
doubled double quote stands for one double quote, and a lone double quote
closes the field. This definition follows the wording of the spec (a standard
CSV reader), not server.js, for the round-trip comparison. -/
def parseQuotedField : List Char → List Char
  | [] => []
  | [c] => if c = dquote then [] else [c]
  | c :: d :: t =>
    if c = dquote then
      if d = dquote then dquote :: parseQuotedField t else []
    else c :: parseQuotedField (d :: t)

/-- Reads an RFC4180 unquoted field: it ends at a comma, a line feed, a
carriage return, or the end of input. This definition follows the wording of
the spec (a standard CSV reader), not server.js. -/
def parseUnquotedField : List Char → List Char
  | [] => []
  | c :: t =>
    if c = ',' ∨ c = '\n' ∨ c = cr then [] else c :: parseUnquotedField t

/-- Standard RFC4180 reading of one rendered field: a field opening with a
double quote is read as a quoted field, anything else as an unquoted field.
This definition follows the wording of the spec, not server.js. -/
def parseCsvField (s : String) : String :=
  match s.data with
  | [] => ""
  | c :: t =>
    if c = dquote then String.mk (parseQuotedField t)
    else String.mk (parseUnquotedField (c :: t))

/-! Order facts about the SQLite comparison of nullable timestamps. -/

theorem createdLeB_refl (a : Option String) : createdLeB a a = true := by
  cases a <;> simp [createdLeB]

theorem createdLeB_total (a b : Option String) :
    createdLeB a b = true ∨ createdLeB b a = true := by
  cases a <;> cases b <;> simp [createdLeB]
  exact le_total _ _

theorem createdLeB_trans {a b c : Option String}
    (h1 : createdLeB a b = true) (h2 : createdLeB b c = true) :
    createdLeB a c = true := by
  cases a with
  | none => cases c <;> rfl
  | some x =>
    cases b with
    | none => simp [createdLeB] at h1
    | some y =>
      cases c with
      | none => simp [createdLeB] at h2
      | some z =>
        simp only [createdLeB, decide_eq_true_eq] at h1 h2 ⊢
        exact le_trans h1 h2

instance : IsTotal Row rowDesc :=
  ⟨fun a b => createdLeB_total b.created_at a.created_at⟩

instance : IsTrans Row rowDesc :=
  ⟨fun _ _ _ hab hbc => createdLeB_trans hbc hab⟩

/-- C9: on a store with zero records, GET /rsvps returns the empty JSON array
and GET /admin renders exactly the single placeholder table row reading
No RSVPs yet. instead of record rows. -/
theorem c9_empty_state (st : Store) (h : st.rows = []) :
    rsvpsBody st = [] ∧
    adminTbody (listAll st) =
      "<tr><td colspan=\"6\" class=\"small\">No RSVPs yet.</td></tr>" := by
  have hl : listAll st = [] := by rw [listAll, h]; rfl
  rw [rsvpsBody, hl]
  exact ⟨rfl, by decide⟩

/-- Witness for c9_empty_state at the freshly created store. -/
theorem c9_empty_state_witness :
    emptyStore.rows = [] ∧
    (rsvpsBody emptyStore = [] ∧
     adminTbody (listAll emptyStore) =
       "<tr><td colspan=\"6\" class=\"small\">No RSVPs yet.</td></tr>") :=
  ⟨rfl, c9_empty_state emptyStore rfl⟩

/-- C10: rendering is total over missing fields: a record whose nullable
fields are all null or undefined is rendered by the admin HTML renderer and
the CSV renderer with every such field mapped to the empty string, never to
the text null or undefined, and without failing. -/
theorem c10_null_fields_render_empty :
    escapeHtml none = "" ∧ escapeCsv none = "" ∧
    (∀ n : Nat,
      renderCsvRow { id := n, code := none, name := none, attending := none,
                     dietary := none, message := none, created_at := none } =
        escapeCsvStr (toString n) ++ ",,,,,," ∧
      renderAdminRow { id := n, code := none, name := none, attending := none,
                       dietary := none, message := none, created_at := none } =
        "\n        <tr>\n          <td></td>\n          <td></td>\n          <td></td>\n          <td></td>\n          <td></td>\n          <td></td>\n        </tr>\n      ") := by
  refine ⟨rfl, rfl, fun n => ⟨?_, ?_⟩⟩
  · show String.intercalate ","
        [escapeCsvStr (toString n), "", "", "", "", "", ""] = _
    simp [String.intercalate, String.intercalate.go, String.append_assoc]
  · rfl

/-! HTML escaping: the sequential replaceAll chain of escapeHtml equals the
one-pass entity substitution the spec describes, and its output holds no raw
markup characters. -/

theorem substChar_append (c : Char) (r a b : List Char) :
    substChar c r (a ++ b) = substChar c r a ++ substChar c r b := by
  induction a with
  | nil => rfl
  | cons x t ih => simp [substChar, ih, List.append_assoc]

/-- The HTML entity for one character, as the spec words it: the characters
ampersand, less than, greater than, double quote and single quote map to
their entities; every other character stands for itself. -/
def htmlEntity (c : Char) : List Char :=
  if c = Char.ofNat 38 then "&amp;".data
  else if c = Char.ofNat 60 then "&lt;".data
  else if c = Char.ofNat 62 then "&gt;".data
  else if c = dquote then "&quot;".data
  else if c = squote then "&#039;".data
  else [c]

/-- One-pass entity substitution over a character list. -/
def onePassEscape : List Char → List Char
  | [] => []
  | c :: t => htmlEntity c ++ onePassEscape t

theorem escapeHtmlL_append (a b : List Char) :
    escapeHtmlL (a ++ b) = escapeHtmlL a ++ escapeHtmlL b := by
  simp [escapeHtmlL, substChar_append]

theorem escapeHtmlL_single (c : Char) : escapeHtmlL [c] = htmlEntity c := by
  rcases eq_or_ne c (Char.ofNat 38) with h1 | h1
  · subst h1; decide
  rcases eq_or_ne c (Char.ofNat 60) with h2 | h2
  · subst h2; decide
  rcases eq_or_ne c (Char.ofNat 62) with h3 | h3
  · subst h3; decide
  rcases eq_or_ne c dquote with h4 | h4
  · subst h4; decide
  rcases eq_or_ne c squote with h5 | h5
  · subst h5; decide
  simp [escapeHtmlL, substChar, htmlEntity, h1, h2, h3, h4, h5]

theorem escapeHtmlL_eq_onePass (s : List Char) :
    escapeHtmlL s = onePassEscape s := by
  induction s with
  | nil => rfl
  | cons c t ih =>
    have h : c :: t = [c] ++ t := rfl
    rw [h, escapeHtmlL_append, escapeHtmlL_single, ih]
    rfl

theorem htmlEntity_no_markup (c : Char) :
    Char.ofNat 60 ∉ htmlEntity c ∧ Char.ofNat 62 ∉ htmlEntity c := by
  rcases eq_or_ne c (Char.ofNat 38) with h1 | h1
  · subst h1; decide
  rcases eq_or_ne c (Char.ofNat 60) with h2 | h2
  · subst h2; decide
  rcases eq_or_ne c (Char.ofNat 62) with h3 | h3
  · subst h3; decide
  rcases eq_or_ne c dquote with h4 | h4
  · subst h4; decide
  rcases eq_or_ne c squote with h5 | h5
  · subst h5; decide
  simp only [htmlEntity, if_neg h1, if_neg h2, if_neg h3, if_neg h4, if_neg h5,
    List.mem_singleton]
  exact ⟨Ne.symm h2, Ne.symm h3⟩

theorem escapeHtml_no_markup (v : Option String) :
    (escapeHtml v).data.count (Char.ofNat 60) = 0 ∧
    (escapeHtml v).data.count (Char.ofNat 62) = 0 := by
  show (escapeHtmlL (jsString v).data).count (Char.ofNat 60) = 0 ∧
    (escapeHtmlL (jsString v).data).count (Char.ofNat 62) = 0
  rw [escapeHtmlL_eq_onePass]
  induction (jsString v).data with
  | nil => exact ⟨rfl, rfl⟩
  | cons c t ih =>
    have hc := htmlEntity_no_markup c
    simp only [onePassEscape, List.count_append]
    rw [List.count_eq_zero.mpr hc.1, List.count_eq_zero.mpr hc.2, ih.1, ih.2]
    exact ⟨rfl, rfl⟩

/-- C5: every text field rendered in the admin table goes through escapeHtml,
which replaces the five special characters by their HTML entities (in
particular a script tag renders as its escaped text), so the rendered table
row holds no markup characters beyond the fourteen fixed tag brackets of the
template. -/
theorem c5_admin_escapes_html (r : Row) :
    (∀ v : Option String,
      escapeHtml v = String.mk (onePassEscape (jsString v).data)) ∧
    escapeHtml (some "<script>") = "&lt;script&gt;" ∧
    (renderAdminRow r).data.count (Char.ofNat 60) = 14 ∧
    (renderAdminRow r).data.count (Char.ofNat 62) = 14 := by
  refine ⟨fun v => congrArg String.mk (escapeHtmlL_eq_onePass _), by decide, ?_, ?_⟩ <;>
  · simp only [renderAdminRow, String.data_append, List.count_append,
      (escapeHtml_no_markup _).1, (escapeHtml_no_markup _).2]
    decide

/-- C6: POST /rsvp responds 200 with success true and the new id exactly when
the insert succeeds, and 500 with the constant body Database error exactly
when it fails; the failure branch carries no information about the underlying
cause. -/
theorem c6_post_rsvp_response (st : Store) (p : Payload) (now : String) :
    (postRsvp st p now true).2 =
      { status := 200, body := .success (insertRow st p now).2 } ∧
    (postRsvp st p now false).2 =
      { status := 500, body := .dbError "Database error" } ∧
    (∀ ok : Bool, ((postRsvp st p now ok).2.status = 200 ↔ ok = true) ∧
      ((postRsvp st p now ok).2.status = 500 ↔ ok = false)) := by
  refine ⟨rfl, rfl, fun ok => ?_⟩
  cases ok <;> simp [postRsvp]

/-! CSV escaping and the RFC4180 round trip. -/

theorem parseQuoted_doubleQuotes (s : List Char) :
    parseQuotedField (substChar dquote [dquote, dquote] s ++ [dquote]) = s := by
  induction s with
  | nil => simp [substChar, parseQuotedField]
  | cons c t ih =>
    rcases eq_or_ne c dquote with h | h
    · subst h
      simp only [substChar, if_pos rfl, List.cons_append, List.nil_append]
      simp [parseQuotedField, ih]
    · simp only [substChar, if_neg h, List.cons_append, List.nil_append]
      rcases hrest : substChar dquote [dquote, dquote] t ++ [dquote] with _ | ⟨d, t2⟩
      · exact absurd hrest (by simp)
      · rw [parseQuotedField, if_neg h, ← hrest, ih]

theorem parseUnquoted_id (s : List Char)
    (h : ∀ c ∈ s, ¬(c = ',' ∨ c = '\n' ∨ c = cr)) :
    parseUnquotedField s = s := by
  induction s with
  | nil => rfl
  | cons c t ih =>
    rw [parseUnquotedField, if_neg (h c (List.mem_cons_self c t)),
      ih fun x hx => h x (List.mem_cons_of_mem c hx)]

/-- C4 (amended): for every field string holding no carriage return, the
export renderer wraps the field in double quotes exactly when it contains a
comma, a double quote or a line feed, doubling embedded double quotes, and
standard RFC4180 reading of the rendered field yields the original string. -/
theorem c4_csv_field_roundtrip (s : String) (h : cr ∉ s.data) :
    (csvNeedsQuoting s = true →
      escapeCsvStr s =
        String.mk (dquote :: (substChar dquote [dquote, dquote] s.data ++ [dquote]))) ∧
    (csvNeedsQuoting s = false → escapeCsvStr s = s) ∧
    parseCsvField (escapeCsvStr s) = s := by
  obtain ⟨ls⟩ := s
  cases hq : csvNeedsQuoting (String.mk ls) with
  | false =>
    have he : escapeCsvStr (String.mk ls) = String.mk ls := by
      simp [escapeCsvStr, hq]
    have hchars : ∀ c ∈ ls, ¬(c = ',' ∨ c = '\n' ∨ c = cr) := by
      intro c hc
      have hn : ¬(c == dquote || c == ',' || c == '\n') = true := by
        intro hb
        have : csvNeedsQuoting (String.mk ls) = true := by
          simp only [csvNeedsQuoting, List.any_eq_true]
          exact ⟨c, hc, hb⟩
        rw [this] at hq
        exact Bool.noConfusion hq
      simp only [Bool.or_eq_true, beq_iff_eq] at hn
      push_neg at hn
      rintro (hcase | hcase | hcase)
      · exact hn.1.2 hcase
      · exact hn.2 hcase
      · exact h (hcase ▸ hc)
    refine ⟨fun ht => absurd ht (by decide), fun _ => he, ?_⟩
    rw [he]
    cases ls with
    | nil => decide
    | cons c t =>
      have hcd : c ≠ dquote := by
        intro hcd
        have : csvNeedsQuoting (String.mk (c :: t)) = true := by
          simp only [csvNeedsQuoting, List.any_eq_true]
          exact ⟨c, List.mem_cons_self c t, by simp [hcd]⟩
        rw [this] at hq
        exact Bool.noConfusion hq
      show (if c = dquote then String.mk (parseQuotedField t)
        else String.mk (parseUnquotedField (c :: t))) = String.mk (c :: t)
      rw [if_neg hcd, parseUnquoted_id (c :: t) hchars]
  | true =>
    have he : escapeCsvStr (String.mk ls) =
        String.mk (dquote :: (substChar dquote [dquote, dquote] ls ++ [dquote])) := by
      simp [escapeCsvStr, hq]
    refine ⟨fun _ => he, fun hf => absurd hf (by decide), ?_⟩
    rw [he]
    show (if dquote = dquote then
        String.mk (parseQuotedField (substChar dquote [dquote, dquote] ls ++ [dquote]))
      else String.mk (parseUnquotedField
        (dquote :: (substChar dquote [dquote, dquote] ls ++ [dquote])))) = String.mk ls
    rw [if_pos rfl, parseQuoted_doubleQuotes]

/-- Witness for c4_csv_field_roundtrip at the field of the spec example. -/
theorem c4_csv_field_roundtrip_witness :
    cr ∉ ("a,b\"c").data ∧ escapeCsvStr "a,b\"c" = "\"a,b\"\"c\"" ∧
    parseCsvField (escapeCsvStr "a,b\"c") = "a,b\"c" :=
  ⟨by decide, by decide, (c4_csv_field_roundtrip "a,b\"c" (by decide)).2.2⟩

/-- C4 counterexample: a field holding a carriage return is left unquoted
by escapeCsv, whose test matches only line feed, and standard RFC4180 reading
of the rendered field does not return the original string (the claim states
the round trip for every field string). -/
theorem c4_cr_field_no_roundtrip :
    escapeCsvStr (String.mk ['a', cr, 'b']) = String.mk ['a', cr, 'b'] ∧
    parseCsvField (escapeCsvStr (String.mk ['a', cr, 'b'])) ≠
      String.mk ['a', cr, 'b'] := by
  decide

/-- C8: storage initialization is idempotent: CREATE TABLE IF NOT EXISTS run
against a location where the rsvps table already exists raises no error and
leaves the existing table unchanged, and a second run returns exactly the
state of the first. -/
theorem c8_create_table_idempotent (d : Option Store) :
    (∃ d2, runCreateTable d = .ok d2 ∧ runCreateTable d2 = .ok d2) ∧
    (∀ st : Store, runCreateTable (some st) = .ok (some st)) := by
  refine ⟨?_, fun st => rfl⟩
  cases d with
  | none => exact ⟨some emptyStore, rfl, rfl⟩
  | some st => exact ⟨some st, rfl, rfl⟩

/-- C3: in the output of GET /rsvps and GET /admin, for any two stored records
where A has a strictly earlier created_at than B, A appears at a strictly
later position than B (descending by creation time), and both routes render
the same ORDER BY created_at DESC list. -/
theorem c3_listing_newest_first (st : Store) (i j : Fin (listAll st).length)
    (hlt : createdLt ((listAll st).get i).created_at
      ((listAll st).get j).created_at) :
    (j : Nat) < (i : Nat) ∧ rsvpsBody st = listAll st ∧
    adminRows st = (listAll st).map renderAdminRow := by
  refine ⟨?_, rfl, rfl⟩
  have hs : (listAll st).Sorted rowDesc := List.sorted_insertionSort rowDesc st.rows
  rcases Nat.lt_trichotomy (i : Nat) (j : Nat) with hij | hij | hij
  · have hrel := hs.rel_get_of_lt (show i < j from Fin.lt_def.mpr hij)
    exact absurd (hrel.symm.trans hlt.2) (by decide)
  · have heq : i = j := Fin.ext hij
    subst heq
    exact absurd ((createdLeB_refl _).symm.trans hlt.2) (by decide)
  · exact hij

/-- Two-row store for the ordering witness: the row with id 1 was created
strictly earlier than the row with id 2. -/
def wStore : Store :=
  { rows :=
      [{ id := 1, code := some "A1", name := some "Jo",
         attending := some "yes", dietary := none, message := none,
         created_at := some "2024-01-01 10:00:00" },
       { id := 2, code := some "B2", name := some "Ann",
         attending := some "no", dietary := none, message := none,
         created_at := some "2024-01-02 10:00:00" }],
    nextId := 3 }

/-- Witness for c3_listing_newest_first: in the two-row store the earlier row
sits at index 1, after the later row at index 0. -/
theorem c3_listing_newest_first_witness :
    createdLt ((listAll wStore).get ⟨1, by decide⟩).created_at
      ((listAll wStore).get ⟨0, by decide⟩).created_at ∧ (0 : Nat) < 1 :=
  ⟨by decide,
   (c3_listing_newest_first wStore ⟨1, by decide⟩ ⟨0, by decide⟩ (by decide)).1⟩

/-- C1: a successful POST /rsvp returns an id assigned to no previously
stored record, and a subsequent GET /rsvps contains a record with that id
whose code, name, attending, dietary and message equal the submitted values
exactly. -/
theorem c1_insert_fresh_id_readback (st : Store) (p : Payload) (now : String)
    (hinv : ∀ r ∈ st.rows, r.id < st.nextId) :
    (∀ r ∈ st.rows, r.id ≠ (insertRow st p now).2) ∧
    (∃ r ∈ rsvpsBody (insertRow st p now).1,
      r.id = (insertRow st p now).2 ∧ r.code = p.code ∧ r.name = p.name ∧
      r.attending = p.attending ∧ r.dietary = p.dietary ∧
      r.message = p.message ∧ r.created_at = some now) := by
  constructor
  · exact fun r hr => Nat.ne_of_lt (hinv r hr)
  · refine ⟨{ id := st.nextId, code := p.code, name := p.name,
              attending := p.attending, dietary := p.dietary,
              message := p.message, created_at := some now },
      ?_, rfl, rfl, rfl, rfl, rfl, rfl, rfl⟩
    show _ ∈ (insertRow st p now).1.rows.insertionSort rowDesc
    exact (List.mem_insertionSort rowDesc).mpr (by simp [insertRow])

/-- The payload of the end-to-end scenario in the spec. -/
def wPayload : Payload :=
  { code := some "A1", name := some "Jo", attending := some "yes",
    dietary := some "none", message := some "hi" }

/-- Witness for c1_insert_fresh_id_readback at the freshly created store. -/
theorem c1_insert_fresh_id_readback_witness :
    (∀ r ∈ emptyStore.rows, r.id < emptyStore.nextId) ∧
    ((∀ r ∈ emptyStore.rows,
        r.id ≠ (insertRow emptyStore wPayload "2024-05-01 12:00:00").2) ∧
     (∃ r ∈ rsvpsBody (insertRow emptyStore wPayload "2024-05-01 12:00:00").1,
        r.id = (insertRow emptyStore wPayload "2024-05-01 12:00:00").2 ∧
        r.code = wPayload.code ∧ r.name = wPayload.name ∧
        r.attending = wPayload.attending ∧ r.dietary = wPayload.dietary ∧
        r.message = wPayload.message ∧
        r.created_at = some "2024-05-01 12:00:00")) :=
  ⟨by decide,
   c1_insert_fresh_id_readback emptyStore wPayload "2024-05-01 12:00:00"
     (by decide)⟩

/-- The invariants of the stored table: every id is below the AUTOINCREMENT
counter, and ids are pairwise distinct. -/
def GoodStore (st : Store) : Prop :=
  (∀ r ∈ st.rows, r.id < st.nextId) ∧
  st.rows.Pairwise fun a b => a.id ≠ b.id

theorem stepStore_preserves (st : Store) (e : Event) :
    (∃ new, (stepStore st e).rows = st.rows ++ new) ∧
    (GoodStore st → GoodStore (stepStore st e)) ∧
    st.nextId ≤ (stepStore st e).nextId := by
  cases e with
  | post p now dbOk =>
    cases dbOk with
    | false => exact ⟨⟨[], (List.append_nil _).symm⟩, fun h => h, le_refl _⟩
    | true =>
      refine ⟨⟨_, rfl⟩, fun h => ⟨?_, ?_⟩, Nat.le_succ _⟩
      · intro r hr
        rcases List.mem_append.mp hr with h1 | h1
        · exact Nat.lt_succ_of_lt (h.1 r h1)
        · rw [List.mem_singleton.mp h1]
          exact Nat.lt_succ_self _
      · refine (List.pairwise_append).mpr ⟨h.2, List.pairwise_singleton _ _, ?_⟩
        intro a ha b hb
        rw [List.mem_singleton.mp hb]
        exact Nat.ne_of_lt (h.1 a ha)
  | getRoot => exact ⟨⟨[], (List.append_nil _).symm⟩, fun h => h, le_refl _⟩
  | getRsvps => exact ⟨⟨[], (List.append_nil _).symm⟩, fun h => h, le_refl _⟩
  | getAdmin => exact ⟨⟨[], (List.append_nil _).symm⟩, fun h => h, le_refl _⟩
  | exportJson => exact ⟨⟨[], (List.append_nil _).symm⟩, fun h => h, le_refl _⟩
  | exportCsv => exact ⟨⟨[], (List.append_nil _).symm⟩, fun h => h, le_refl _⟩

/-- C7: records are immutable after creation: over any request sequence,
every already stored row persists unchanged (same id, fields and created_at),
rows are only appended (no route updates or deletes), ids stay pairwise
distinct, and the AUTOINCREMENT counter never decreases, so an id is never
reassigned. -/
theorem c7_rows_immutable (st : Store) (es : List Event) (hg : GoodStore st) :
    (∃ new, (runEvents st es).rows = st.rows ++ new) ∧
    GoodStore (runEvents st es) ∧ st.nextId ≤ (runEvents st es).nextId := by
  induction es generalizing st with
  | nil => exact ⟨⟨[], (List.append_nil _).symm⟩, hg, le_refl _⟩
  | cons e es ih =>
    obtain ⟨⟨new1, h1⟩, hgood, hle⟩ := stepStore_preserves st e
    obtain ⟨⟨new2, h2⟩, hg2, hle2⟩ := ih (stepStore st e) (hgood hg)
    refine ⟨⟨new1 ++ new2, ?_⟩, hg2, le_trans hle hle2⟩
    show (runEvents (stepStore st e) es).rows = _
    rw [h2, h1, List.append_assoc]

/-- A request sequence for the immutability witness: a successful insert, a
read, and a failed insert. -/
def wEvents : List Event :=
  [Event.post wPayload "2024-05-01 12:00:00" true, Event.getRsvps,
   Event.post wPayload "2024-05-02 12:00:00" false]

/-- Witness for c7_rows_immutable on a concrete request sequence from the
freshly created store. -/
theorem c7_rows_immutable_witness :
    GoodStore emptyStore ∧
    ((∃ new, (runEvents emptyStore wEvents).rows = emptyStore.rows ++ new) ∧
     GoodStore (runEvents emptyStore wEvents) ∧
     emptyStore.nextId ≤ (runEvents emptyStore wEvents).nextId) :=
  ⟨⟨by decide, List.Pairwise.nil⟩,
   c7_rows_immutable emptyStore wEvents ⟨by decide, List.Pairwise.nil⟩⟩

example : escapeCsv (some "a,b\"c") = "\"a,b\"\"c\"" := by decide
example : parseCsvField "\"a,b\"\"c\"" = "a,b\"c" := by decide
example : escapeHtml (some "<script>") = "&lt;script&gt;" := by decide
example : escapeHtml none = "" := by decide
example : adminTbody [] =
    "<tr><td colspan=\"6\" class=\"small\">No RSVPs yet.</td></tr>" := by decide
